import Mathlib

set_option maxRecDepth 1000000

/-!
Shallow embedding of the ingestion-normalization-aggregation pipeline of the
cf-waf-analyzer repository: the field normalizer (`parseWAFRecord` and its
helpers from `lib/parser.ts`), the content parser, checksum/dedup gate,
batched upsert engine and analytics rollup updater (`functions/api/upload.ts`),
and the reindex coordinator (`functions/api/reindex.ts`).

JavaScript's dynamic values are modelled by the inductive `JsValue`; a raw
vendor record is a string-keyed field list, property access on a missing key
yields `undefined`.  JS runtime builtins that the repository calls but does not
define (`JSON.parse`, `Date.parse`, SHA-256 via `crypto.subtle`) are supplied
as parameters bundled in `Builtins`; everything the repository defines is
translated concretely.  JS numbers are modelled as `Int` (the numeric fields
involved — epochs, ASNs, statuses, byte counts, scores — are integral; `NaN`
is represented by the `Option` result of the parsing helpers).  The SQLite
store (`D1`) is modelled by explicit row lists in `DB`, with the schema's
`UNIQUE(ray_id, event_ts)` constraint enforced by `INSERT OR IGNORE` checks
and `ON CONFLICT` upserts translated per statement.
-/

/-- Model of a JavaScript value as produced by `JSON.parse` or property
access; `undefined` is the result of reading an absent property. -/
inductive JsValue where
  | undefined
  | null
  | bool (b : Bool)
  | num (n : Int)
  | str (s : String)
  | arr (xs : List JsValue)
  | obj (fields : List (String × JsValue))

/-- JavaScript truthiness (`NaN` does not arise: numeric parse failures are
modelled as `Option.none` before a `JsValue.num` is built). -/
def JsValue.truthy : JsValue → Bool
  | .undefined => false
  | .null => false
  | .bool b => b
  | .num n => n != 0
  | .str s => s != ""
  | .arr _ => true
  | .obj _ => true

/-- Property access `raw.k` on a record object: first binding wins, absent
keys give `undefined`. -/
def getField (fields : List (String × JsValue)) (k : String) : JsValue :=
  match fields.find? (fun p => p.1 == k) with
  | some p => p.2
  | none => .undefined

/-- JavaScript `a || b`: `a` if truthy, else `b` (right-nested chains give
the first truthy operand, else the last operand). -/
def jsOr (a b : JsValue) : JsValue := if a.truthy then a else b

/-- JS `a || b` on `string | undefined` values: non-empty strings are
truthy, so this is `Option.orElse` (the helpers below never produce `""`). -/
def orStr (a b : Option String) : Option String :=
  match a with
  | some s => some s
  | none => b

/-- Source `extractString`: a value is kept only if it is a string of
positive length. -/
def extractString : JsValue → Option String
  | .str s => if s.length > 0 then some s else none
  | _ => none

/-- Source `safeString`, textually identical to `extractString`. -/
def safeString : JsValue → Option String
  | .str s => if s.length > 0 then some s else none
  | _ => none

/-- Character-list test used to model `String.startsWith`. -/
def charsStartWith : List Char → List Char → Bool
  | _, [] => true
  | [], _ :: _ => false
  | a :: as, b :: bs => a == b && charsStartWith as bs

/-- Substring containment over character lists, modelling JS
`String.prototype.includes`. -/
def charsContain : List Char → List Char → Bool
  | [], sub => sub.isEmpty
  | a :: as, sub => charsStartWith (a :: as) sub || charsContain as sub

/-- JS `s.startsWith(t)`. -/
def jsStartsWith (s t : String) : Bool := charsStartWith s.data t.data

/-- JS `s.includes(t)`. -/
def jsIncludes (s t : String) : Bool := charsContain s.data t.data

/-- Lower-casing of ASCII letters, modelling `String.prototype.toLowerCase`
on the ASCII action tokens the parser handles. -/
def jsToLower (s : String) : String :=
  .mk (s.data.map (fun c =>
    if 'A' ≤ c && c ≤ 'Z' then Char.ofNat (c.toNat + 32) else c))

/-- Removal of `_` and `-`, modelling `replace(/[_-]/g, '')`. -/
def stripSeparators (s : String) : String :=
  .mk (s.data.filter (fun c => c != '_' && c != '-'))

/-- ASCII whitespace test for modelling JS `trim` and `parseInt`'s
leading-whitespace skip. -/
def isWsChar (c : Char) : Bool := c == ' ' || c == '\t' || c == '\r' || c == '\n'

/-- Decimal digits to a natural number. -/
def digitsToNat (ds : List Char) : Nat :=
  ds.foldl (fun acc c => acc * 10 + (c.toNat - 48)) 0

/-- Model of JS `parseInt(s, 10)` (also used for the radix-free call in
`normalizeTimestamp`, whose arguments are plain decimal strings): skip
leading whitespace, take an optional sign and the leading run of decimal
digits; `none` models a `NaN` result. -/
def parseIntJS (s : String) : Option Int :=
  let t := s.data.dropWhile isWsChar
  let (sign, rest) : Int × List Char :=
    match t with
    | '-' :: r => (-1, r)
    | '+' :: r => (1, r)
    | r => (1, r)
  let ds := rest.takeWhile Char.isDigit
  if ds.isEmpty then none else some (sign * (digitsToNat ds : Int))

/-- Source `normalizeTimestamp`, parameterized by the JS builtin
`Date.parse` (`dp`, with `none` for a `NaN` result): falsy input is
rejected, numbers below the 10-digit threshold are seconds and scaled by
1000, strings go through `Date.parse` then the `parseInt` epoch heuristic. -/
def normalizeTimestamp (dp : String → Option Int) (value : JsValue) : Option Int :=
  if !value.truthy then none
  else
    match value with
    | .num n => if n < 10000000000 then some (n * 1000) else some n
    | .str s =>
      match dp s with
      | some parsed => some parsed
      | none =>
        match parseIntJS s with
        | some n => if n < 10000000000 then some (n * 1000) else some n
        | none => none
    | _ => none

/-- Source `normalizeNumber`: `null`/`undefined` give `undefined`, numbers
pass through, strings go through `parseInt(v, 10)`, anything else is
`undefined`. -/
def normalizeNumber : JsValue → Option Int
  | .undefined => none
  | .null => none
  | .num n => some n
  | .str s => parseIntJS s
  | _ => none

/-- Source `normalizeAction`: falsy input maps to `unknown`; otherwise
lower-case, strip `_`/`-`, and match the closed synonym table. -/
def normalizeAction (action : Option String) : String :=
  match action with
  | none => "unknown"
  | some a =>
    if a == "" then "unknown"
    else
      let normalized := stripSeparators (jsToLower a)
      if normalized == "block" || normalized == "blocked" then "block"
      else if normalized == "challenge" || normalized == "challenged" ||
              normalized == "jschallenge" || normalized == "managedchallenge" ||
              normalized == "managed_challenge" then "challenge"
      else if normalized == "log" || normalized == "logged" then "log"
      else if normalized == "skip" || normalized == "skipped" ||
              normalized == "bypass" then "skip"
      else if normalized == "allow" || normalized == "allowed" ||
              normalized == "pass" then "allow"
      else "unknown"

/-- Source `determineRuleType`: no (or empty) rule id is `unknown`;
managed-ruleset markers beat the `custom_` test. -/
def determineRuleType (ruleId : Option String) (service : Option String) : String :=
  match ruleId with
  | none => "unknown"
  | some rid =>
    if rid == "" then "unknown"
    else if jsStartsWith rid "managed_" || jsIncludes rid "OWASP" ||
            jsIncludes rid "cloudflare" || service == some "managed" then "managed"
    else if jsStartsWith rid "custom_" || service == some "custom" then "custom"
    else "unknown"

/-- Canonical event shape (`WAFEvent` in `lib/types.ts`, as built by the
normalizer; the optional `id`/`file_id`/`ingested_at` columns are assigned
at write time and live in `EventRow`). -/
structure WAFEvent where
  ray_id : String
  event_ts : Int
  src_ip : Option String
  src_country : Option String
  src_asn : Option Int
  colo : Option String
  host : Option String
  path : Option String
  method : Option String
  status : Option Int
  rule_id : Option String
  rule_name : Option String
  rule_type : String
  action : String
  service : Option String
  mitigation_reason : Option String
  ua : Option String
  ja3 : Option String
  bytes : Option Int
  threat_score : Option Int
  deriving Repr, DecidableEq

/-- JS `x || undefined` on a `string | undefined` value. -/
def orUndefinedStr (o : Option String) : Option String :=
  match o with
  | some s => if s == "" then none else some s
  | none => none

/-- JS `x || undefined` on a `number | undefined` value: `0` is falsy and
collapses to `undefined`. -/
def orUndefinedNum (o : Option Int) : Option Int :=
  match o with
  | some n => if n == 0 then none else some n
  | none => none

/-- First-present alias chain `extractString(raw.k1) || ...` over record
fields. -/
def strChain (r : List (String × JsValue)) (keys : List String) : Option String :=
  keys.foldr (fun k acc => orStr (extractString (getField r k)) acc) none

/-- Raw-value alias chain `raw.k1 || raw.k2 || ...`: the first truthy
field, else the value of the last alias. -/
def rawChain (r : List (String × JsValue)) (keys : List String) : JsValue :=
  match keys with
  | [] => .undefined
  | [k] => getField r k
  | k :: rest => jsOr (getField r k) (rawChain r rest)

/-- Ray-id aliases tried by the normalizer, in source order. -/
def rayAliases : List String := ["RayID", "rayId", "ray_id", "rayName", "ray_name"]

/-- Timestamp aliases tried by the normalizer, in source order. -/
def tsAliases : List String :=
  ["EdgeStartTimestamp", "edgeStartTimestamp", "timestamp", "event_timestamp", "datetime"]

/-- ASN alias chain (the source lists `client_asn` twice). -/
def asnAliases : List String :=
  ["ClientASN", "clientASN", "client_asn", "clientAsn", "client_asn"]

/-- Response-status alias chain (the source lists `edgeResponseStatus` twice). -/
def statusAliases : List String :=
  ["EdgeResponseStatus", "edgeResponseStatus", "status", "edgeResponseStatus", "edge_response_status"]

/-- Request-bytes alias chain (the source lists `clientRequestBytes` twice). -/
def bytesAliases : List String :=
  ["ClientRequestBytes", "clientRequestBytes", "bytes", "clientRequestBytes", "client_request_bytes"]

/-- Threat-score alias chain. -/
def threatAliases : List String := ["SecurityLevel", "securityLevel", "threat_score"]

/-- Branch of the array-or-singular extraction: `some result` means the
`Array.isArray(x) && x.length > 0` guard was taken (with `result` the head
if it is a string, else `undefined`); `none` means fall through. -/
def firstStrOfJsArr : JsValue → Option (Option String)
  | .arr (x :: _) =>
    some (match x with
          | .str s => some s
          | _ => none)
  | _ => none

/-- Plain `typeof x === 'string'` extraction (an empty string is accepted). -/
def typeofStr : JsValue → Option String
  | .str s => some s
  | _ => none

/-- Rule-id extraction: array variants `FirewallMatchesRuleIDs` first, then
singular string aliases, mirroring the source's if/else chain. -/
def extractRuleIdField (r : List (String × JsValue)) : Option String :=
  match firstStrOfJsArr (getField r "FirewallMatchesRuleIDs") with
  | some res => res
  | none =>
    match firstStrOfJsArr (getField r "firewallMatchesRuleIDs") with
    | some res => res
    | none =>
      orStr (typeofStr (getField r "rule_id"))
        (orStr (typeofStr (getField r "ruleId"))
          (orStr (typeofStr (getField r "WAFRuleID"))
            (typeofStr (getField r "wafRuleID"))))

/-- Action extraction: array variants `FirewallMatchesActions` first, then
singular string aliases. -/
def extractActionField (r : List (String × JsValue)) : Option String :=
  match firstStrOfJsArr (getField r "FirewallMatchesActions") with
  | some res => res
  | none =>
    match firstStrOfJsArr (getField r "firewallMatchesActions") with
    | some res => res
    | none =>
      orStr (typeofStr (getField r "action"))
        (orStr (typeofStr (getField r "WAFAction"))
          (typeofStr (getField r "wafAction")))

/-- Service extraction: array variants `FirewallMatchesSources` first, then
singular string aliases. -/
def extractServiceField (r : List (String × JsValue)) : Option String :=
  match firstStrOfJsArr (getField r "FirewallMatchesSources") with
  | some res => res
  | none =>
    match firstStrOfJsArr (getField r "firewallMatchesSources") with
    | some res => res
    | none =>
      orStr (typeofStr (getField r "service")) (typeofStr (getField r "source"))

/-- Normalization of one record object's fields into an event, given the
ray id and normalized timestamp (the body of `parseWAFRecord` after its two
mandatory-field gates). -/
def buildEvent (r : List (String × JsValue)) (rayId : String) (eventTs : Int) : WAFEvent :=
  let srcIp := strChain r ["ClientIP", "clientIP", "client_ip", "source_ip"]
  let srcCountry := strChain r
    ["ClientCountry", "clientCountry", "client_country", "clientCountryName", "client_country_name"]
  let srcAsn := normalizeNumber (rawChain r asnAliases)
  let colo := strChain r
    ["EdgeColoCode", "edgeColoCode", "colo", "datacenter", "edgeColo", "edge_colo"]
  let host := strChain r
    ["ClientRequestHost", "clientRequestHost", "host", "hostname",
     "clientRequestHTTPHost", "client_request_http_host"]
  let path := strChain r
    ["ClientRequestPath", "clientRequestPath", "path", "uri",
     "clientRequestPath", "client_request_path"]
  let method := strChain r
    ["ClientRequestMethod", "clientRequestMethod", "method",
     "clientRequestHTTPMethodName", "client_request_http_method_name"]
  let status := normalizeNumber (rawChain r statusAliases)
  let ruleId := extractRuleIdField r
  let actionStr := extractActionField r
  let action := normalizeAction actionStr
  let service := extractServiceField r
  let ruleName := orStr (safeString (getField r "WAFRuleMessage"))
    (orStr (safeString (getField r "wafRuleMessage"))
      (orStr (safeString (getField r "rule_name")) (safeString (getField r "description"))))
  let ruleType := determineRuleType ruleId service
  let ua := strChain r
    ["ClientRequestUserAgent", "clientRequestUserAgent", "user_agent", "ua", "userAgent"]
  let ja3 := strChain r ["JA3Hash", "ja3Hash", "ja3"]
  let bytes := normalizeNumber (rawChain r bytesAliases)
  let threatScore := normalizeNumber (rawChain r threatAliases)
  { ray_id := rayId
    event_ts := eventTs
    src_ip := orUndefinedStr srcIp
    src_country := orUndefinedStr srcCountry
    src_asn := orUndefinedNum srcAsn
    colo := orUndefinedStr colo
    host := orUndefinedStr host
    path := orUndefinedStr path
    method := orUndefinedStr method
    status := orUndefinedNum status
    rule_id := orUndefinedStr ruleId
    rule_name := ruleName
    rule_type := ruleType
    action := action
    service := orUndefinedStr service
    mitigation_reason := safeString (getField r "mitigation_reason")
    ua := orUndefinedStr ua
    ja3 := orUndefinedStr ja3
    bytes := orUndefinedNum bytes
    threat_score := orUndefinedNum threatScore }

/-- Source `parseWAFRecord`, parameterized by the `Date.parse` builtin.  A
non-object argument yields `none`: property access on a JS primitive gives
`undefined` (so the mandatory ray id is absent), and on `null`/`undefined`
it throws, which the function's own try/catch converts to `null`.  The
function is total — the source never lets an exception escape. -/
def parseWAFRecord (dp : String → Option Int) (raw : JsValue) : Option WAFEvent :=
  match raw with
  | .obj r =>
    match strChain r rayAliases with
    | none => none
    | some rayId =>
      match normalizeTimestamp dp (rawChain r tsAliases) with
      | none => none
      | some eventTs => some (buildEvent r rayId eventTs)
  | _ => none

/-- JS runtime builtins the repository calls but does not define:
`JSON.parse` (an `Except` whose error is the thrown message text),
`Date.parse` (`none` for `NaN`), and the SHA-256 content checksum computed
by `computeChecksum` via `crypto.subtle.digest`. -/
structure Builtins where
  jsonParse : String → Except String JsValue
  dateParse : String → Option Int
  sha256hex : String → String

/-- Source `computeChecksum`: hex encoding of the SHA-256 digest of the
content, supplied by the crypto builtin. -/
def computeChecksum (bi : Builtins) (content : String) : String :=
  bi.sha256hex content

/-- Split on `'\n'`, modelling `content.split('\n')`. -/
def splitNlAux : List Char → List Char → List String
  | [], acc => [.mk acc.reverse]
  | c :: cs, acc =>
    if c == '\n' then .mk acc.reverse :: splitNlAux cs []
    else splitNlAux cs (c :: acc)

/-- JS `content.split('\n')`. -/
def splitNl (s : String) : List String := splitNlAux s.data []

/-- The truthiness test `line.trim()` used to discard blank lines: true iff
the line has a non-whitespace character. -/
def trimNonEmpty (s : String) : Bool := s.data.any (fun c => !isWsChar c)

/-- The non-blank lines of the content:
`content.split('\n').filter(line => line.trim())`. -/
def nonBlankLines (content : String) : List String :=
  (splitNl content).filter trimNonEmpty

/-- Line-oriented (NDJSON) parsing shared verbatim by `parseContent` and the
reindex handler: each non-blank line is parsed as one JSON value
independently; a throwing `JSON.parse` appends one error string; a record
the normalizer rejects is dropped silently.  `parseWAFRecord` is total, so
the surrounding `catch` never fires for normalizer input. -/
def parseLinesGo (bi : Builtins) : List String → List WAFEvent × List String
  | [] => ([], [])
  | l :: ls =>
    let rest := parseLinesGo bi ls
    match bi.jsonParse l with
    | .error msg => (rest.1, ("Failed to parse line: " ++ msg) :: rest.2)
    | .ok v =>
      match parseWAFRecord bi.dateParse v with
      | some e => (e :: rest.1, rest.2)
      | none => rest

/-- NDJSON mode over a whole content string. -/
def parseLines (bi : Builtins) (content : String) : List WAFEvent × List String :=
  parseLinesGo bi (nonBlankLines content)

/-- Source `parseContent` (upload handler): whole-content `JSON.parse`
first; only an array result is consumed in array mode (record-level
normalizer rejections are silent and the per-record `catch` is unreachable
since `parseWAFRecord` is total).  Both a parse failure and a successful
non-array parse fall through to line-oriented mode — the `return` sits
inside the `Array.isArray` branch. -/
def parseContent (bi : Builtins) (content : String) : List WAFEvent × List String :=
  match bi.jsonParse content with
  | .ok (.arr records) => (records.filterMap (parseWAFRecord bi.dateParse), [])
  | _ => parseLines bi content

/-- Inline parsing logic of the reindex handler (`handleReindex`): same
array mode, but the NDJSON fallback lives inside the `catch` block, so it
runs only when whole-content `JSON.parse` throws — a successful non-array
parse yields zero events and zero errors. -/
def reindexParseContent (bi : Builtins) (content : String) : List WAFEvent × List String :=
  match bi.jsonParse content with
  | .ok (.arr records) => (records.filterMap (parseWAFRecord bi.dateParse), [])
  | .ok _ => ([], [])
  | .error _ => parseLines bi content

/-- Row of the `waf_events` table (schema `scripts/seed.sql`; the surrogate
`id` column is not modelled — no pipeline code reads it). -/
structure EventRow where
  ray_id : String
  event_ts : Int
  src_ip : Option String
  src_country : Option String
  src_asn : Option Int
  colo : Option String
  host : Option String
  path : Option String
  method : Option String
  status : Option Int
  rule_id : Option String
  rule_name : Option String
  rule_type : String
  action : String
  service : Option String
  mitigation_reason : Option String
  ua : Option String
  ja3 : Option String
  bytes : Option Int
  threat_score : Option Int
  file_id : Nat
  ingested_at : Int
  deriving Repr, DecidableEq

/-- Row of the `uploads` table; the three counters default to 0 on insert. -/
structure UploadRow where
  id : Nat
  filename : String
  checksum : String
  size : Nat
  uploaded_at : Int
  raw_r2_key : Option String
  total_records : Nat
  inserted_records : Nat
  deduped_records : Nat
  deriving Repr, DecidableEq

/-- Row of the `daily_actions` rollup; the `date` key models SQLite
`date(event_ts / 1000, 'unixepoch')` as an epoch-day number (the calendar
date string determines and is determined by it). -/
structure DailyActionRow where
  date : Int
  action : String
  count : Nat
  last_updated : Int
  deriving Repr, DecidableEq

/-- Row of the `top_rules` rollup. -/
structure TopRuleRow where
  rule_id : String
  rule_name : Option String
  rule_type : String
  count : Nat
  last_seen : Int
  last_updated : Int
  deriving Repr, DecidableEq

/-- Row of the `top_ips` rollup; `countries` and `asns` model the JSON
arrays produced by `json_group_array(DISTINCT ...)` (a `NULL` source value
contributes a null element). -/
structure TopIpRow where
  src_ip : String
  count : Nat
  countries : List (Option String)
  asns : List (Option Int)
  last_seen : Int
  last_updated : Int
  deriving Repr, DecidableEq

/-- Row of the `attack_paths` rollup; `path_hash` models the
`lower(hex(randomblob(16)))` key as a nonce drawn from a counter that is
fresh with respect to the whole store (random 128-bit collisions are
measure-zero and not modelled). -/
structure AttackPathRow where
  path_hash : Nat
  path : String
  method : Option String
  status : Option Int
  count : Nat
  last_seen : Int
  last_updated : Int
  deriving Repr, DecidableEq

/-- State of the D1 database plus the R2 blob store (`r2` maps object keys
to stored raw text); `next_upload_id` models the `uploads` AUTOINCREMENT
rowid and `next_hash` the fresh-nonce supply for `attack_paths` keys. -/
structure DB where
  uploads : List UploadRow
  events : List EventRow
  daily_actions : List DailyActionRow
  top_rules : List TopRuleRow
  top_ips : List TopIpRow
  attack_paths : List AttackPathRow
  r2 : List (String × String)
  next_upload_id : Nat
  next_hash : Nat
  deriving Repr, DecidableEq

/-- Binding of one normalized event into an insert row: the `|| null`
coercions of `insertEventBatch`'s `stmt.bind` call (zero and empty-string
values bind NULL; `rule_type`/`action` fall back to `'unknown'`), plus the
server-assigned file reference and ingestion time.  The source calls
`Date.now()` once per bound row; one request-scoped `now` stands for it. -/
def WAFEvent.toRow (e : WAFEvent) (fileId : Nat) (now : Int) : EventRow :=
  { ray_id := e.ray_id
    event_ts := e.event_ts
    src_ip := orUndefinedStr e.src_ip
    src_country := orUndefinedStr e.src_country
    src_asn := orUndefinedNum e.src_asn
    colo := orUndefinedStr e.colo
    host := orUndefinedStr e.host
    path := orUndefinedStr e.path
    method := orUndefinedStr e.method
    status := orUndefinedNum e.status
    rule_id := orUndefinedStr e.rule_id
    rule_name := orUndefinedStr e.rule_name
    rule_type := if e.rule_type == "" then "unknown" else e.rule_type
    action := if e.action == "" then "unknown" else e.action
    service := orUndefinedStr e.service
    mitigation_reason := orUndefinedStr e.mitigation_reason
    ua := orUndefinedStr e.ua
    ja3 := orUndefinedStr e.ja3
    bytes := orUndefinedNum e.bytes
    threat_score := orUndefinedNum e.threat_score
    file_id := fileId
    ingested_at := now }

/-- Dedup key of the `UNIQUE(ray_id, event_ts)` constraint. -/
def EventRow.key (r : EventRow) : String × Int := (r.ray_id, r.event_ts)

/-- Dedup key of a normalized event. -/
def WAFEvent.key (e : WAFEvent) : String × Int := (e.ray_id, e.event_ts)

/-- Whether the store already holds a row with the given dedup key. -/
def hasKey (rows : List EventRow) (k : String × Int) : Bool :=
  rows.any (fun r => r.ray_id == k.1 && r.event_ts == k.2)

/-- Sequential execution of one batch of `INSERT OR IGNORE` statements:
each row is written unless its `(ray_id, event_ts)` key is already present,
and `meta.changes` decides the inserted/deduped tallies. -/
def insertEventsGo (fileId : Nat) (now : Int) :
    List WAFEvent → List EventRow × Nat × Nat → List EventRow × Nat × Nat
  | [], acc => acc
  | e :: es, (rows, ins, ded) =>
    let row := e.toRow fileId now
    if hasKey rows row.key then
      insertEventsGo fileId now es (rows, ins, ded + 1)
    else
      insertEventsGo fileId now es (rows ++ [row], ins + 1, ded)

/-- Source `insertEventBatch`: insert one batch into the `waf_events` rows,
returning the new rows and the `(inserted, deduped)` tallies. -/
def insertEventBatch (events : List WAFEvent) (fileId : Nat) (now : Int)
    (rows : List EventRow) : List EventRow × Nat × Nat :=
  insertEventsGo fileId now events (rows, 0, 0)

/-- Key of the `daily_actions` GROUP BY: SQLite `event_ts / 1000` truncates
toward zero and `date(·, 'unixepoch')` yields the calendar date, modelled
by its epoch-day number (floor division by 86400 seconds). -/
def dateKey (ts : Int) : Int := (ts.tdiv 1000).fdiv 86400

/-- SQL `MAX` aggregate over a group's timestamps (groups at the call sites
are non-empty; the `[]` default is unreachable). -/
def listMax : List Int → Int
  | [] => 0
  | x :: xs => xs.foldl max x

/-- SQLite string comparison maximum. -/
def maxStr (a b : String) : String := if a < b then b else a

/-- SQL `MAX` aggregate over a group's non-null strings. -/
def listMaxStr : List String → String
  | [] => ""
  | x :: xs => xs.foldl maxStr x

/-- SQL `MAX` aggregate over nullable strings: NULLs are ignored, an
all-NULL group yields NULL. -/
def listMaxOptStr (xs : List (Option String)) : Option String :=
  match xs.filterMap id with
  | [] => none
  | y :: ys => some (ys.foldl maxStr y)

/-- Upsert of one `daily_actions` group row:
`ON CONFLICT(date, action) DO UPDATE` accumulates the count and stamps
`last_updated`. -/
def upsertDaily (now : Int) (tbl : List DailyActionRow) (g : DailyActionRow) :
    List DailyActionRow :=
  if tbl.any (fun r => r.date == g.date && r.action == g.action) then
    tbl.map (fun r =>
      if r.date == g.date && r.action == g.action then
        { r with count := r.count + g.count, last_updated := now }
      else r)
  else tbl ++ [g]

/-- Groups of the `daily_actions` INSERT..SELECT over one file's events. -/
def dailyGroups (fes : List EventRow) (now : Int) : List DailyActionRow :=
  ((fes.map (fun r => (dateKey r.event_ts, r.action))).dedup).map (fun k =>
    { date := k.1, action := k.2
      count := (fes.filter (fun r => dateKey r.event_ts == k.1 && r.action == k.2)).length
      last_updated := now })

/-- Upsert of one `top_rules` group row: `ON CONFLICT(rule_id) DO UPDATE`
accumulates the count and maximizes `last_seen`; `rule_name` and
`rule_type` are not listed in the update and keep their stored values. -/
def upsertRule (now : Int) (tbl : List TopRuleRow) (g : TopRuleRow) : List TopRuleRow :=
  if tbl.any (fun r => r.rule_id == g.rule_id) then
    tbl.map (fun r =>
      if r.rule_id == g.rule_id then
        { r with count := r.count + g.count, last_seen := max r.last_seen g.last_seen,
                 last_updated := now }
      else r)
  else tbl ++ [g]

/-- Groups of the `top_rules` INSERT..SELECT: events of the file with a
non-null `rule_id`, grouped by it. -/
def ruleGroups (fes : List EventRow) (now : Int) : List TopRuleRow :=
  ((fes.filterMap (fun r => r.rule_id)).dedup).map (fun rid =>
    let rows := fes.filter (fun r => r.rule_id == some rid)
    { rule_id := rid
      rule_name := listMaxOptStr (rows.map (fun r => r.rule_name))
      rule_type := listMaxStr (rows.map (fun r => r.rule_type))
      count := rows.length
      last_seen := listMax (rows.map (fun r => r.event_ts))
      last_updated := now })

/-- Upsert of one `top_ips` group row: `ON CONFLICT(src_ip) DO UPDATE`
accumulates the count and maximizes `last_seen`; the `countries` and `asns`
columns are not listed in the update and keep their stored values. -/
def upsertIp (now : Int) (tbl : List TopIpRow) (g : TopIpRow) : List TopIpRow :=
  if tbl.any (fun r => r.src_ip == g.src_ip) then
    tbl.map (fun r =>
      if r.src_ip == g.src_ip then
        { r with count := r.count + g.count, last_seen := max r.last_seen g.last_seen,
                 last_updated := now }
      else r)
  else tbl ++ [g]

/-- Groups of the `top_ips` INSERT..SELECT: events of the file with a
non-null `src_ip`, grouped by it, with `json_group_array(DISTINCT ...)`
modelled as deduplicated value lists. -/
def ipGroups (fes : List EventRow) (now : Int) : List TopIpRow :=
  ((fes.filterMap (fun r => r.src_ip)).dedup).map (fun ip =>
    let rows := fes.filter (fun r => r.src_ip == some ip)
    { src_ip := ip
      count := rows.length
      countries := (rows.map (fun r => r.src_country)).dedup
      asns := (rows.map (fun r => r.src_asn)).dedup
      last_seen := listMax (rows.map (fun r => r.event_ts))
      last_updated := now })

/-- Per-path groups of the `attack_paths` INSERT..SELECT, keyed by
`(path, method, status)` over events with a non-null path; the `path_hash`
key is assigned later from the nonce supply. -/
def pathGroups (fes : List EventRow) :
    List ((String × Option String × Option Int) × Nat × Int) :=
  let pes := fes.filter (fun r => r.path.isSome)
  ((pes.map (fun r => (r.path.getD "", r.method, r.status))).dedup).map (fun k =>
    let rows := pes.filter (fun r =>
      r.path == some k.1 && r.method == k.2.1 && r.status == k.2.2)
    (k, rows.length, listMax (rows.map (fun r => r.event_ts))))

/-- Upsert of one `attack_paths` group row: each selected group carries a
fresh `lower(hex(randomblob(16)))` key, so the
`ON CONFLICT(path_hash) DO UPDATE` clause (kept here for faithfulness)
never fires against an existing row — the group is appended as a new row
regardless of its `(path, method, status)` values. -/
def upsertPath (now : Int) (acc : List AttackPathRow × Nat)
    (g : (String × Option String × Option Int) × Nat × Int) :
    List AttackPathRow × Nat :=
  let (tbl, nonce) := acc
  if tbl.any (fun r => r.path_hash == nonce) then
    (tbl.map (fun r =>
      if r.path_hash == nonce then
        { r with count := r.count + g.2.1, last_seen := max r.last_seen g.2.2,
                 last_updated := now }
      else r), nonce + 1)
  else
    (tbl ++ [{ path_hash := nonce, path := g.1.1, method := g.1.2.1, status := g.1.2.2,
               count := g.2.1, last_seen := g.2.2, last_updated := now }], nonce + 1)

/-- Source `updateAnalyticsTables`: fold the four INSERT..SELECT..ON
CONFLICT statements, each scoped to the triggering file's events, into the
rollup tables. -/
def updateAnalyticsTables (fileId : Nat) (now : Int) (db : DB) : DB :=
  let fes := db.events.filter (fun r => r.file_id == fileId)
  let da := (dailyGroups fes now).foldl (upsertDaily now) db.daily_actions
  let tr := (ruleGroups fes now).foldl (upsertRule now) db.top_rules
  let ti := (ipGroups fes now).foldl (upsertIp now) db.top_ips
  let (ap, nh) := (pathGroups fes).foldl (upsertPath now) (db.attack_paths, db.next_hash)
  { db with daily_actions := da, top_rules := tr, top_ips := ti,
            attack_paths := ap, next_hash := nh }

/-- Status values of a per-file upload result relevant to the pipeline
(size and transport errors are handled by the surrounding HTTP glue). -/
inductive UploadStatus where
  | success
  | already_processed
  | no_valid_events
  deriving Repr, DecidableEq

/-- Per-file result shape returned by `processFile` (the presentation-only
`time_range` and `note` fields are omitted; `errors` is the
`errors.slice(0, 10)` cap; a `no_valid_events` result carries zero
counters). -/
structure FileResult where
  filename : String
  checksum : String
  file_id : Nat
  status : UploadStatus
  total : Nat
  inserted : Nat
  deduped : Nat
  errors : List String
  deriving Repr, DecidableEq

/-- Fuel-bounded chunking of the batch loop
`for (let i = 0; i < events.length; i += batchSize)`; the fuel equals the
list length, enough for any positive batch size (the source's default is
1000; a zero batch size would not terminate in the source either). -/
def chunksOfAux {α : Type} : Nat → Nat → List α → List (List α)
  | 0, _, _ => []
  | _, _, [] => []
  | fuel + 1, n, x :: xs =>
    (x :: xs).take n :: chunksOfAux fuel n ((x :: xs).drop n)

/-- Chunks of at most `n` events, in order. -/
def chunksOf {α : Type} (n : Nat) (xs : List α) : List (List α) :=
  chunksOfAux xs.length n xs

/-- Batch loop shared by upload and reindex: fold `insertEventBatch` over
the chunks, accumulating the running inserted/deduped totals. -/
def insertAllBatches (batchSize : Nat) (events : List WAFEvent) (fileId : Nat)
    (now : Int) (rows : List EventRow) : List EventRow × Nat × Nat :=
  (chunksOf batchSize events).foldl (fun acc b =>
    let r := insertEventBatch b fileId now acc.1
    (r.1, acc.2.1 + r.2.1, acc.2.2 + r.2.2)) (rows, 0, 0)

/-- Update of one upload row by id (`UPDATE uploads ... WHERE id = ?`). -/
def updateUpload (db : DB) (fileId : Nat) (f : UploadRow → UploadRow) : DB :=
  { db with uploads := db.uploads.map (fun u => if u.id == fileId then f u else u) }

/-- Ingestion path of `processFile` taken once no upload row matches the
checksum: create the upload row (counters default to 0, an auditable trail
if ingestion dies), optionally retain the raw text in R2, parse, batch
insert, write back the counters and fold the new rows into the rollups. -/
def ingestFile (bi : Builtins) (r2Enabled : Bool) (batchSize : Nat)
    (filename content : String) (size : Nat) (now : Int) (db : DB) :
    FileResult × DB :=
  let checksum := computeChecksum bi content
  let fileId := db.next_upload_id
  let db : DB :=
    { db with
      uploads := db.uploads ++
        [{ id := fileId, filename := filename, checksum := checksum, size := size,
           uploaded_at := now, raw_r2_key := none,
           total_records := 0, inserted_records := 0, deduped_records := 0 }]
      next_upload_id := fileId + 1 }
  let db : DB :=
    if r2Enabled then
      let r2Key := "uploads/" ++ checksum
      updateUpload { db with r2 := db.r2 ++ [(r2Key, content)] } fileId
        (fun u => { u with raw_r2_key := some r2Key })
    else db
  let parsed := parseContent bi content
  let events := parsed.1
  let errors := parsed.2
  if events.isEmpty then
    let db := updateUpload db fileId (fun u => { u with total_records := 0 })
    ({ filename := filename, checksum := checksum, file_id := fileId,
       status := .no_valid_events, total := 0, inserted := 0, deduped := 0,
       errors := errors.take 10 }, db)
  else
    let r := insertAllBatches batchSize events fileId now db.events
    let db := { db with events := r.1 }
    let db := updateUpload db fileId (fun u =>
      { u with total_records := events.length, inserted_records := r.2.1,
               deduped_records := r.2.2 })
    let db := updateAnalyticsTables fileId now db
    ({ filename := filename, checksum := checksum, file_id := fileId,
       status := .success, total := events.length, inserted := r.2.1,
       deduped := r.2.2, errors := errors.take 10 }, db)

/-- Source `processFile`: the checksum/dedup gate in front of `ingestFile`.
A stored upload with a positive inserted count short-circuits with its
stored statistics; one with a zero inserted count is deleted and ingestion
proceeds; otherwise the file is new. -/
def processFile (bi : Builtins) (r2Enabled : Bool) (batchSize : Nat)
    (filename content : String) (size : Nat) (now : Int) (db : DB) :
    FileResult × DB :=
  let checksum := computeChecksum bi content
  match db.uploads.find? (fun u => u.checksum == checksum) with
  | some existing =>
    if existing.inserted_records == 0 then
      ingestFile bi r2Enabled batchSize filename content size now
        { db with uploads := db.uploads.filter (fun u => u.id != existing.id) }
    else
      ({ filename := filename, checksum := checksum, file_id := existing.id,
         status := .already_processed, total := existing.total_records,
         inserted := existing.inserted_records, deduped := existing.deduped_records,
         errors := [] }, db)
  | none => ingestFile bi r2Enabled batchSize filename content size now db

/-- Reindex request selector: the handler queries `uploads` by checksum
when one is supplied, else by file id. -/
inductive ReindexKey where
  | byChecksum (c : String)
  | byFileId (i : Nat)
  deriving Repr, DecidableEq

/-- Outcome shape of `handleReindex`: the two 4xx conditions (upload row
not found; raw content not retained or missing from R2) and the success
payload `(file_id, filename, total, inserted, deduped, errors)`. -/
inductive ReindexResult where
  | notFound
  | rawUnavailable
  | rawMissing
  | ok (file_id : Nat) (filename : String) (total : Nat) (inserted : Nat)
       (deduped : Nat) (errors : List String)
  deriving Repr, DecidableEq

/-- Source `handleReindex` (`functions/api/reindex.ts`): look up the upload
row, fetch the retained raw text from R2, delete the file's event rows,
re-run the inline parser and the batch-insert loop, and overwrite the
upload's statistics.  The handler issues no rollup statement. -/
def handleReindex (bi : Builtins) (batchSize : Nat) (key : ReindexKey)
    (now : Int) (db : DB) : ReindexResult × DB :=
  let found : Option UploadRow :=
    match key with
    | .byChecksum c => db.uploads.find? (fun u => u.checksum == c)
    | .byFileId i => db.uploads.find? (fun u => u.id == i)
  match found with
  | none => (.notFound, db)
  | some info =>
    match info.raw_r2_key with
    | none => (.rawUnavailable, db)
    | some r2Key =>
      match db.r2.find? (fun p : String × String => p.1 == r2Key) with
      | none => (.rawMissing, db)
      | some blob =>
        let content := blob.2
        let db : DB := { db with events := db.events.filter (fun r => r.file_id != info.id) }
        let parsed := reindexParseContent bi content
        let events := parsed.1
        let errors := parsed.2
        let r := insertAllBatches batchSize events info.id now db.events
        let db := { db with events := r.1 }
        let db := updateUpload db info.id (fun u =>
          { u with total_records := events.length, inserted_records := r.2.1,
                   deduped_records := r.2.2 })
        (.ok info.id info.filename events.length r.2.1 r.2.2 (errors.take 10), db)

/-- Whether a parsed JS value is an array (`Array.isArray`). -/
def JsValue.isArr : JsValue → Bool
  | .arr _ => true
  | _ => false

/-- Whether whole-content `JSON.parse` succeeds with an array (the
condition that selects array mode in both parsing paths). -/
def wholeParseIsArr (bi : Builtins) (content : String) : Bool :=
  match bi.jsonParse content with
  | .ok v => v.isArr
  | .error _ => false

/-- Whether whole-content `JSON.parse` succeeds at all (does not throw). -/
def wholeParseOk (bi : Builtins) (content : String) : Bool :=
  match bi.jsonParse content with
  | .ok _ => true
  | .error _ => false

/-- Number of stored rows carrying a given `(ray_id, event_ts)` dedup key. -/
def countKey (rows : List EventRow) (k : String × Int) : Nat :=
  (rows.filter (fun r => r.ray_id == k.1 && r.event_ts == k.2)).length

/-!  Concrete fixtures used to instantiate the theorems below: a `Date.parse`
stub, a two-record NDJSON sample with one malformed line, a `JSON.parse`
oracle that agrees with real JSON semantics on exactly the strings the runs
below feed it, and small database states. -/

/-- `Date.parse` stub returning `NaN` (the sample timestamps are numeric). -/
def noParse : String → Option Int := fun _ => none

/-- First sample NDJSON line (a JSON object with a ray id and a
seconds-scale timestamp). -/
def jsonLine1 : String := "\x7b\"RayID\":\"r1\",\"timestamp\":1600000000\x7d"

/-- Second sample NDJSON line (adds request and source fields). -/
def jsonLine2 : String :=
  "\x7b\"RayID\":\"r2\",\"timestamp\":1600000001,\"path\":\"/login\",\"method\":\"POST\",\"status\":403,\"client_ip\":\"1.2.3.4\",\"client_country\":\"US\",\"action\":\"block\"\x7d"

/-- A line that is not JSON. -/
def badLine : String := "not json"

/-- Sample file content: two valid records and one malformed line. -/
def sampleContent : String := jsonLine1 ++ "\n" ++ badLine ++ "\n" ++ jsonLine2

/-- Parse result of `jsonLine1`. -/
def sampleRec1 : JsValue := .obj [("RayID", .str "r1"), ("timestamp", .num 1600000000)]

/-- Parse result of `jsonLine2`. -/
def sampleRec2 : JsValue := .obj
  [("RayID", .str "r2"), ("timestamp", .num 1600000001),
   ("path", .str "/login"), ("method", .str "POST"), ("status", .num 403),
   ("client_ip", .str "1.2.3.4"), ("client_country", .str "US"), ("action", .str "block")]

/-- Builtins oracle for the sample: `JSON.parse` agrees with real JSON
semantics on the strings the sample runs feed it (each sample line parses
to its object; every other queried string, including the whole NDJSON
content, throws), `Date.parse` is `NaN`, and the checksum is deterministic
and collision-free on the contents used. -/
def sampleBuiltins : Builtins :=
  { jsonParse := fun s =>
      if s == jsonLine1 then .ok sampleRec1
      else if s == jsonLine2 then .ok sampleRec2
      else .error "SyntaxError: Unexpected token"
    dateParse := noParse
    sha256hex := fun s => "sha-" ++ toString s.length }

/-- Empty initial database. -/
def emptyDB : DB :=
  { uploads := []
    events := []
    daily_actions := []
    top_rules := []
    top_ips := []
    attack_paths := []
    r2 := []
    next_upload_id := 1
    next_hash := 0 }

/-- Database state after ingesting the sample file once (with R2
retention on). -/
def dbProcessed : DB :=
  (processFile sampleBuiltins true 1000 "f.ndjson" sampleContent 100 5000 emptyDB).2

/-- The upload row held by `dbProcessed`. -/
def sampleUploadRow : UploadRow :=
  { id := 1, filename := "f.ndjson", checksum := "sha-190", size := 100,
    uploaded_at := 5000, raw_r2_key := some "uploads/sha-190",
    total_records := 2, inserted_records := 2, deduped_records := 0 }

/-- An event carrying only the mandatory fields. -/
def basicEvent (rid : String) (ts : Int) : WAFEvent :=
  { ray_id := rid, event_ts := ts, src_ip := none, src_country := none,
    src_asn := none, colo := none, host := none, path := none, method := none,
    status := none, rule_id := none, rule_name := none, rule_type := "unknown",
    action := "unknown", service := none, mitigation_reason := none, ua := none,
    ja3 := none, bytes := none, threat_score := none }

/-- A stored event row carrying only the mandatory fields. -/
def basicRow (rid : String) (ts : Int) (fid : Nat) : EventRow :=
  { ray_id := rid, event_ts := ts, src_ip := none, src_country := none,
    src_asn := none, colo := none, host := none, path := none, method := none,
    status := none, rule_id := none, rule_name := none, rule_type := "unknown",
    action := "unknown", service := none, mitigation_reason := none, ua := none,
    ja3 := none, bytes := none, threat_score := none, file_id := fid,
    ingested_at := 0 }

/-- Stored per-IP rollup row: one prior event from the US, ASN 100. -/
def ipRowUS : TopIpRow :=
  { src_ip := "9.9.9.9", count := 1, countries := [some "US"], asns := [some 100],
    last_seen := 50, last_updated := 0 }

/-- New event from the same IP but a different country and ASN. -/
def eventRowDE : EventRow :=
  { basicRow "de1" 99 7 with src_ip := some "9.9.9.9", src_country := some "DE",
                             src_asn := some 200 }

/-- Database holding `ipRowUS` and file 7's single German event. -/
def dbIpMerge : DB := { emptyDB with events := [eventRowDE], top_ips := [ipRowUS] }

/-- Two events from two different files hitting the same
`(path, method, status)`. -/
def loginRow1 : EventRow :=
  { basicRow "p1" 10 1 with path := some "/login", method := some "POST",
                            status := some 403 }

/-- Second file's event for the same path key. -/
def loginRow2 : EventRow :=
  { basicRow "p2" 20 2 with path := some "/login", method := some "POST",
                            status := some 403 }

/-- Database holding both files' login events, rollups empty. -/
def dbPaths : DB := { emptyDB with events := [loginRow1, loginRow2] }

/-- Raw record whose four numeric fields are present and zero (each bound
to the alias that is the last operand of its `||` chain, so the zero value
itself reaches `normalizeNumber`). -/
def zeroRec : List (String × JsValue) :=
  [("ray_id", .str "z1"), ("timestamp", .num 1600000000),
   ("client_asn", .num 0), ("edge_response_status", .num 0),
   ("client_request_bytes", .num 0), ("threat_score", .num 0)]

/-- The event `zeroRec` normalizes to: every zero numeric field is absent. -/
def zeroEv : WAFEvent := basicEvent "z1" 1600000000000

/-! Helper lemmas. -/

theorem orStr_eq_none {a b : Option String} : orStr a b = none ↔ a = none ∧ b = none := by
  cases a <;> simp [orStr]

theorem strChain_cons (r : List (String × JsValue)) (k : String) (ks : List String) :
    strChain r (k :: ks) = orStr (extractString (getField r k)) (strChain r ks) := rfl

theorem strChain_eq_none (r : List (String × JsValue)) (ks : List String) :
    strChain r ks = none ↔ ∀ k ∈ ks, extractString (getField r k) = none := by
  induction ks with
  | nil => simp [strChain]
  | cons k ks ih => simp [strChain_cons, orStr_eq_none, ih]

/-- C6: for every raw record in which no correlation-id alias carries a
non-empty string value, or whose timestamp alias chain does not normalize,
`parseWAFRecord` returns `none` rather than an event — and only then: when
both mandatory fields resolve, every other missing or malformed field
degrades to an absent field of a returned event.  The embedding is a total
function, reflecting that the source never lets an exception escape its
try/catch. -/
theorem parseWAFRecord_mandatory_gate (dp : String → Option Int)
    (r : List (String × JsValue)) :
    (parseWAFRecord dp (.obj r) = none ↔
      strChain r rayAliases = none ∨
        normalizeTimestamp dp (rawChain r tsAliases) = none)
    ∧ (strChain r rayAliases = none ↔
        ∀ k ∈ rayAliases, extractString (getField r k) = none) := by
  constructor
  · cases h1 : strChain r rayAliases with
    | none => simp [parseWAFRecord, h1]
    | some rid =>
      cases h2 : normalizeTimestamp dp (rawChain r tsAliases) <;>
        simp [parseWAFRecord, h1, h2]
  · exact strChain_eq_none r rayAliases

/-- Witness for `parseWAFRecord_mandatory_gate`: a record with no ray-id
alias is rejected. -/
theorem parseWAFRecord_mandatory_gate_witness :
    parseWAFRecord noParse (.obj [("foo", .str "bar")]) = none :=
  ((parseWAFRecord_mandatory_gate noParse [("foo", .str "bar")]).1).mpr
    (.inl (by decide))

/-- C7: a 9-digit (seconds-scale) numeric epoch and its millisecond
equivalent normalize identically; any non-zero numeric below the 10-digit
threshold is scaled by 1000; a string `Date.parse` accepts yields its
millisecond value; a numeric string `Date.parse` rejects follows the same
seconds/milliseconds heuristic. -/
theorem normalizeTimestamp_seconds_ms_equiv (dp : String → Option Int) :
    (∀ s : Int, 100000000 ≤ s → s ≤ 999999999 →
      normalizeTimestamp dp (.num s) = normalizeTimestamp dp (.num (s * 1000)) ∧
      normalizeTimestamp dp (.num s) = some (s * 1000))
    ∧ (∀ n : Int, n ≠ 0 → n < 10000000000 →
        normalizeTimestamp dp (.num n) = some (n * 1000))
    ∧ (∀ s : String, s ≠ "" → ∀ p : Int, dp s = some p →
        normalizeTimestamp dp (.str s) = some p)
    ∧ (∀ s : String, s ≠ "" → dp s = none → ∀ n : Int, parseIntJS s = some n →
        normalizeTimestamp dp (.str s) =
          some (if n < 10000000000 then n * 1000 else n)) := by
  have hnum : ∀ n : Int, n ≠ 0 →
      normalizeTimestamp dp (.num n) =
        if n < 10000000000 then some (n * 1000) else some n := by
    intro n h
    simp [normalizeTimestamp, JsValue.truthy, bne_iff_ne, h]
  refine ⟨fun s h1 h2 => ?_, fun n h1 h2 => ?_, fun s hs p hp => ?_, fun s hs hdp n hn => ?_⟩
  · have e1 : normalizeTimestamp dp (.num s) = some (s * 1000) := by
      rw [hnum s (by omega), if_pos (by omega)]
    have e2 : normalizeTimestamp dp (.num (s * 1000)) = some (s * 1000) := by
      rw [hnum (s * 1000) (by omega), if_neg (by omega)]
    exact ⟨e1.trans e2.symm, e1⟩
  · rw [hnum n h1, if_pos h2]
  · simp [normalizeTimestamp, JsValue.truthy, bne_iff_ne, hs, hp]
  · simp only [normalizeTimestamp, JsValue.truthy]
    simp [bne_iff_ne, hs, hdp, hn]
    split <;> simp

/-- Witness for `normalizeTimestamp_seconds_ms_equiv` at the 9-digit epoch
123456789. -/
theorem normalizeTimestamp_seconds_ms_equiv_witness :
    normalizeTimestamp noParse (.num 123456789) =
      normalizeTimestamp noParse (.num (123456789 * 1000))
    ∧ normalizeTimestamp noParse (.num 123456789) = some (123456789 * 1000) :=
  (normalizeTimestamp_seconds_ms_equiv noParse).1 123456789 (by decide) (by decide)

theorem parseLinesGo_spec (bi : Builtins) (ls : List String) :
    parseLinesGo bi ls =
      (ls.filterMap (fun l =>
          match bi.jsonParse l with
          | .ok v => parseWAFRecord bi.dateParse v
          | .error _ => none),
       ls.filterMap (fun l =>
          match bi.jsonParse l with
          | .ok _ => none
          | .error m => some ("Failed to parse line: " ++ m))) := by
  induction ls with
  | nil => rfl
  | cons l ls ih =>
    simp only [parseLinesGo, ih, List.filterMap_cons]
    cases hj : bi.jsonParse l with
    | error m => simp
    | ok v => cases hw : parseWAFRecord bi.dateParse v <;> simp [hw]

theorem filterMap_err_length (bi : Builtins) (ls : List String) :
    (ls.filterMap (fun l =>
        match bi.jsonParse l with
        | .ok _ => none
        | .error m => some ("Failed to parse line: " ++ m))).length =
      (ls.filter (fun l => !(wholeParseOk bi l))).length := by
  induction ls with
  | nil => rfl
  | cons l ls ih =>
    simp only [List.filterMap_cons, List.filter_cons]
    cases hj : bi.jsonParse l <;> simp [wholeParseOk, hj, ih]

/-- C8: whenever whole-content `JSON.parse` does not yield an array,
`parseContent` falls back to line-oriented mode: the non-blank lines are
parsed independently, the produced events are exactly the per-line parse
and normalization successes, each malformed line appends exactly one error
string (in order) without affecting the other lines, and a record the
normalizer rejects contributes neither an event nor an error.  Totality of
the embedding reflects that no content-format exception reaches the
caller. -/
theorem parseContent_line_mode_isolation (bi : Builtins) (content : String)
    (h : wholeParseIsArr bi content = false) :
    parseContent bi content = parseLines bi content
    ∧ (parseLines bi content).1 =
        (nonBlankLines content).filterMap (fun l =>
          match bi.jsonParse l with
          | .ok v => parseWAFRecord bi.dateParse v
          | .error _ => none)
    ∧ (parseLines bi content).2 =
        (nonBlankLines content).filterMap (fun l =>
          match bi.jsonParse l with
          | .ok _ => none
          | .error m => some ("Failed to parse line: " ++ m))
    ∧ (parseLines bi content).2.length =
        ((nonBlankLines content).filter (fun l => !(wholeParseOk bi l))).length := by
  refine ⟨?_, ?_, ?_, ?_⟩
  · cases hj : bi.jsonParse content with
    | error m => simp [parseContent, hj]
    | ok v =>
      cases v <;> simp_all [parseContent, wholeParseIsArr, JsValue.isArr]
  · rw [parseLines, parseLinesGo_spec]
  · rw [parseLines, parseLinesGo_spec]
  · rw [parseLines, parseLinesGo_spec]
    exact filterMap_err_length bi (nonBlankLines content)

/-- Witness for `parseContent_line_mode_isolation`: the three-line sample
(two valid records, one malformed line) yields two events and exactly one
error. -/
theorem parseContent_line_mode_isolation_witness :
    parseContent sampleBuiltins sampleContent = parseLines sampleBuiltins sampleContent
    ∧ (parseLines sampleBuiltins sampleContent).1.length = 2
    ∧ (parseLines sampleBuiltins sampleContent).2.length = 1 :=
  ⟨(parseContent_line_mode_isolation sampleBuiltins sampleContent (by decide)).1,
   by decide,
   ((parseContent_line_mode_isolation sampleBuiltins sampleContent (by decide)).2.2.2).trans
     (by decide)⟩

/-- Amended C9: the reindex handler's inline parsing agrees with the upload
handler's `parseContent` whenever whole-content `JSON.parse` throws or
yields an array; for content that parses as valid JSON but is not an
array, `parseContent` falls through to NDJSON mode while the reindex
handler's inline copy (whose NDJSON fallback sits inside the `catch`
block) yields zero events — so the two parsers are not equal in general. -/
theorem parseContent_reindex_agreement (bi : Builtins) (content : String)
    (h : wholeParseOk bi content = false ∨ wholeParseIsArr bi content = true) :
    parseContent bi content = reindexParseContent bi content := by
  cases hj : bi.jsonParse content with
  | error m => simp [parseContent, reindexParseContent, hj]
  | ok v =>
    cases v <;> simp_all [parseContent, reindexParseContent, wholeParseOk,
      wholeParseIsArr, JsValue.isArr]

/-- Witness for `parseContent_reindex_agreement`: on the sample NDJSON
content (whole-content parse throws) the two parsers agree. -/
theorem parseContent_reindex_agreement_witness :
    parseContent sampleBuiltins sampleContent =
      reindexParseContent sampleBuiltins sampleContent :=
  parseContent_reindex_agreement sampleBuiltins sampleContent (.inl (by decide))

/-- Counterexample to C9: `jsonLine1` alone is valid JSON but not an
array; `parseContent` falls back to line mode and produces one event while
the reindex handler's inline parsing produces none, so the two parsers
differ on this content. -/
theorem parseContent_reindex_divergence :
    parseContent sampleBuiltins jsonLine1 ≠
      reindexParseContent sampleBuiltins jsonLine1 := by decide

/-- C10: whenever a raw record's numeric alias chain normalizes to 0 (for
source ASN, response status, request bytes, or threat score), the returned
event has that field absent — the `|| undefined` coercion at event
construction collapses zero — and the batch insert's `|| null` binding
stores NULL for that column, so a legitimate zero value never survives
normalization and persistence. -/
theorem parseWAFRecord_zero_numeric_absent (dp : String → Option Int)
    (r : List (String × JsValue)) (e : WAFEvent) (fid : Nat) (now : Int)
    (h : parseWAFRecord dp (.obj r) = some e) :
    (normalizeNumber (rawChain r asnAliases) = some 0 →
      e.src_asn = none ∧ (e.toRow fid now).src_asn = none)
    ∧ (normalizeNumber (rawChain r statusAliases) = some 0 →
      e.status = none ∧ (e.toRow fid now).status = none)
    ∧ (normalizeNumber (rawChain r bytesAliases) = some 0 →
      e.bytes = none ∧ (e.toRow fid now).bytes = none)
    ∧ (normalizeNumber (rawChain r threatAliases) = some 0 →
      e.threat_score = none ∧ (e.toRow fid now).threat_score = none) := by
  cases h1 : strChain r rayAliases with
  | none => simp [parseWAFRecord, h1] at h
  | some rid =>
    cases h2 : normalizeTimestamp dp (rawChain r tsAliases) with
    | none => simp [parseWAFRecord, h1, h2] at h
    | some ts =>
      simp only [parseWAFRecord, h1, h2, Option.some.injEq] at h
      subst h
      refine ⟨fun hz => ?_, fun hz => ?_, fun hz => ?_, fun hz => ?_⟩ <;>
        simp [buildEvent, WAFEvent.toRow, hz, orUndefinedNum]

/-- Witness for `parseWAFRecord_zero_numeric_absent`: a record whose four
numeric fields are present with value 0 normalizes to an event in which all
four are absent, and whose bound insert row carries NULL for all four. -/
theorem parseWAFRecord_zero_numeric_absent_witness :
    parseWAFRecord noParse (.obj zeroRec) = some zeroEv
    ∧ normalizeNumber (rawChain zeroRec asnAliases) = some 0
    ∧ (zeroEv.src_asn = none ∧ (zeroEv.toRow 3 4).src_asn = none)
    ∧ (zeroEv.status = none ∧ (zeroEv.toRow 3 4).status = none)
    ∧ (zeroEv.bytes = none ∧ (zeroEv.toRow 3 4).bytes = none)
    ∧ (zeroEv.threat_score = none ∧ (zeroEv.toRow 3 4).threat_score = none) :=
  ⟨by decide, by decide,
   (parseWAFRecord_zero_numeric_absent noParse zeroRec zeroEv 3 4 (by decide)).1
     (by decide),
   (parseWAFRecord_zero_numeric_absent noParse zeroRec zeroEv 3 4 (by decide)).2.1
     (by decide),
   (parseWAFRecord_zero_numeric_absent noParse zeroRec zeroEv 3 4 (by decide)).2.2.1
     (by decide),
   (parseWAFRecord_zero_numeric_absent noParse zeroRec zeroEv 3 4 (by decide)).2.2.2
     (by decide)⟩

/-- C1: the checksum/dedup gate of `processFile`.  When the checksum lookup
hits an upload row with a positive inserted count, the call returns
`already_processed` with that row's stored statistics and leaves the
database untouched (no re-parsing, no re-insertion); when the hit row's
inserted count is zero, the stale row is deleted and the full ingestion
path runs on the database without it; and on a database where the lookup
misses (a new file), the call is exactly the full ingestion path. -/
theorem processFile_checksum_gate (bi : Builtins) (r2e : Bool) (bs : Nat)
    (fn content : String) (size : Nat) (now : Int) (db : DB) (u : UploadRow)
    (h : db.uploads.find? (fun v => v.checksum == computeChecksum bi content) = some u) :
    (u.inserted_records ≠ 0 →
      processFile bi r2e bs fn content size now db =
        ({ filename := fn, checksum := computeChecksum bi content, file_id := u.id,
           status := .already_processed, total := u.total_records,
           inserted := u.inserted_records, deduped := u.deduped_records,
           errors := [] }, db))
    ∧ (u.inserted_records = 0 →
      processFile bi r2e bs fn content size now db =
        ingestFile bi r2e bs fn content size now
          { db with uploads := db.uploads.filter (fun v => v.id != u.id) })
    ∧ (∀ db2 : DB,
        db2.uploads.find? (fun v => v.checksum == computeChecksum bi content) = none →
        processFile bi r2e bs fn content size now db2 =
          ingestFile bi r2e bs fn content size now db2) := by
  refine ⟨fun hne => ?_, fun hz => ?_, fun db2 h2 => ?_⟩
  · have hb : (u.inserted_records == 0) = false := by
      simpa [Nat.beq_eq_true_eq] using hne
    simp [processFile, h, hb]
  · have hb : (u.inserted_records == 0) = true := by
      simpa [Nat.beq_eq_true_eq] using hz
    simp [processFile, h, hb]
  · simp [processFile, h2]

/-- Witness for `processFile_checksum_gate`: re-uploading the sample file
onto `dbProcessed` (whose upload row has 2 inserted records) returns
`already_processed` with the stored statistics and leaves the database
unchanged. -/
theorem processFile_checksum_gate_witness :
    processFile sampleBuiltins true 1000 "f.ndjson" sampleContent 100 6000 dbProcessed =
      ({ filename := "f.ndjson", checksum := "sha-190", file_id := 1,
         status := .already_processed, total := 2, inserted := 2, deduped := 0,
         errors := [] }, dbProcessed) := by
  have h := (processFile_checksum_gate sampleBuiltins true 1000 "f.ndjson" sampleContent
    100 6000 dbProcessed sampleUploadRow (by decide)).1 (by decide)
  exact h.trans (by decide)

/-- Amended C3: a reindex request deletes the file's prior events,
re-parses and re-inserts them, and overwrites the Upload statistics, but it
does not re-run the Analytics Rollup update — `handleReindex` leaves all
four rollup tables (and the `attack_paths` key supply) exactly as they
were, on every path including success. -/
theorem handleReindex_preserves_rollups (bi : Builtins) (bs : Nat)
    (key : ReindexKey) (now : Int) (db : DB) :
    (handleReindex bi bs key now db).2.daily_actions = db.daily_actions
    ∧ (handleReindex bi bs key now db).2.top_rules = db.top_rules
    ∧ (handleReindex bi bs key now db).2.top_ips = db.top_ips
    ∧ (handleReindex bi bs key now db).2.attack_paths = db.attack_paths
    ∧ (handleReindex bi bs key now db).2.next_hash = db.next_hash := by
  unfold handleReindex
  cases key with
  | byChecksum c =>
    rcases hf : db.uploads.find? (fun u => u.checksum == c) with _ | info
    · simp [hf]
    · rcases hrk : info.raw_r2_key with _ | k
      · simp [hf, hrk]
      · rcases hb : db.r2.find? (fun p : String × String => p.1 == k) with _ | blob
        · simp [hf, hrk, hb]
        · simp [hf, hrk, hb, updateUpload]
  | byFileId i =>
    rcases hf : db.uploads.find? (fun u => u.id == i) with _ | info
    · simp [hf]
    · rcases hrk : info.raw_r2_key with _ | k
      · simp [hf, hrk]
      · rcases hb : db.r2.find? (fun p : String × String => p.1 == k) with _ | blob
        · simp [hf, hrk, hb]
        · simp [hf, hrk, hb, updateUpload]

/-- Counterexample to C3: on `dbProcessed` the reindex of file 1 succeeds
(raw content retrieved, events re-parsed and re-inserted), yet the rollup
tables are exactly the pre-reindex ones, and actually running the upload
path's `updateAnalyticsTables` on the resulting state would change it — so
the claimed rollup re-run did not happen. -/
theorem handleReindex_rollups_not_updated :
    (handleReindex sampleBuiltins 1000 (.byFileId 1) 7000 dbProcessed).1 =
      .ok 1 "f.ndjson" 2 2 0 ["Failed to parse line: SyntaxError: Unexpected token"]
    ∧ (handleReindex sampleBuiltins 1000 (.byFileId 1) 7000 dbProcessed).2.daily_actions =
        dbProcessed.daily_actions
    ∧ (handleReindex sampleBuiltins 1000 (.byFileId 1) 7000 dbProcessed).2.top_rules =
        dbProcessed.top_rules
    ∧ (handleReindex sampleBuiltins 1000 (.byFileId 1) 7000 dbProcessed).2.top_ips =
        dbProcessed.top_ips
    ∧ (handleReindex sampleBuiltins 1000 (.byFileId 1) 7000 dbProcessed).2.attack_paths =
        dbProcessed.attack_paths
    ∧ updateAnalyticsTables 1 7000
        (handleReindex sampleBuiltins 1000 (.byFileId 1) 7000 dbProcessed).2 ≠
      (handleReindex sampleBuiltins 1000 (.byFileId 1) 7000 dbProcessed).2 := by
  refine ⟨by decide, by decide, by decide, by decide, by decide, by decide⟩

theorem filter_ip_map_update (upd : TopIpRow → TopIpRow)
    (hupd : ∀ r, (upd r).src_ip = r.src_ip) (key ip : String) (tbl : List TopIpRow) :
    (tbl.map (fun r => if r.src_ip == key then upd r else r)).filter
        (fun r => r.src_ip == ip) =
      (tbl.filter (fun r => r.src_ip == ip)).map
        (fun r => if r.src_ip == key then upd r else r) := by
  induction tbl with
  | nil => rfl
  | cons r tbl ih =>
    have hsp : ((if r.src_ip == key then upd r else r).src_ip == ip) = (r.src_ip == ip) := by
      by_cases h1 : (r.src_ip == key) = true <;> simp [h1, hupd]
    by_cases h2 : (r.src_ip == ip) = true
    · simp only [List.map_cons, List.filter_cons, hsp, h2, if_true]
      rw [ih]
    · simp only [List.map_cons, List.filter_cons, hsp, h2, if_false]
      exact ih

theorem upsertIp_filter_ne (now : Int) (tbl : List TopIpRow) (g : TopIpRow)
    (ip : String) (hne : g.src_ip ≠ ip) :
    (upsertIp now tbl g).filter (fun r => r.src_ip == ip) =
      tbl.filter (fun r => r.src_ip == ip) := by
  unfold upsertIp
  split
  · rw [filter_ip_map_update
      (fun r => { r with count := r.count + g.count,
                         last_seen := max r.last_seen g.last_seen,
                         last_updated := now })
      (fun r => rfl) g.src_ip ip tbl]
    have hcong : (tbl.filter (fun r => r.src_ip == ip)).map
        (fun r => if r.src_ip == g.src_ip then
          { r with count := r.count + g.count,
                   last_seen := max r.last_seen g.last_seen,
                   last_updated := now } else r) =
        (tbl.filter (fun r => r.src_ip == ip)).map id := by
      apply List.map_congr_left
      intro r hr
      have hri : r.src_ip = ip := by simpa using (List.mem_filter.mp hr).2
      have hf : (r.src_ip == g.src_ip) = false := by
        simp [hri]
        exact fun he => hne he.symm
      simp [hf]
    rw [hcong, List.map_id]
  · simp [List.filter_append, hne]

theorem upsertIp_filter_eq (now : Int) (tbl : List TopIpRow) (g u : TopIpRow)
    (ip : String) (hgip : g.src_ip = ip)
    (hu : tbl.filter (fun r => r.src_ip == ip) = [u]) :
    (upsertIp now tbl g).filter (fun r => r.src_ip == ip) =
      [{ u with count := u.count + g.count, last_seen := max u.last_seen g.last_seen,
                last_updated := now }] := by
  have humem : u ∈ tbl.filter (fun r => r.src_ip == ip) := by
    rw [hu]; exact List.mem_singleton.mpr rfl
  have hmem := (List.mem_filter.mp humem).1
  have hip : (u.src_ip == ip) = true := (List.mem_filter.mp humem).2
  have hip' : u.src_ip = g.src_ip := by
    rw [hgip]; simpa using hip
  have hany : tbl.any (fun r => r.src_ip == g.src_ip) = true :=
    List.any_eq_true.mpr ⟨u, hmem, by simp [hip', hgip]⟩
  unfold upsertIp
  rw [if_pos hany, filter_ip_map_update
    (fun r => { r with count := r.count + g.count,
                       last_seen := max r.last_seen g.last_seen,
                       last_updated := now })
    (fun r => rfl) g.src_ip ip tbl, hu]
  simp [hip']

theorem foldl_upsertIp_ne (now : Int) (ip : String) (gs : List TopIpRow)
    (tbl : List TopIpRow) (h : ∀ g ∈ gs, g.src_ip ≠ ip) :
    (gs.foldl (upsertIp now) tbl).filter (fun r => r.src_ip == ip) =
      tbl.filter (fun r => r.src_ip == ip) := by
  induction gs generalizing tbl with
  | nil => rfl
  | cons g gs ih =>
    rw [List.foldl_cons, ih _ (fun g' hg' => h g' (List.mem_cons_of_mem g hg')),
      upsertIp_filter_ne now tbl g ip (h g (List.mem_cons_self g gs))]

/-- Amended C4: when a rollup update's incoming source IP already has a
`top_ips` row, the `ON CONFLICT` merge accumulates the count and maximizes
the last-seen timestamp, while the stored distinct-country and
distinct-ASN sets are left exactly as previously stored — they are neither
replaced nor unioned with the sets computed from the triggering file's
events. -/
theorem top_ips_conflict_merge (db : DB) (fileId : Nat) (now : Int) (ip : String)
    (u : TopIpRow)
    (hu : db.top_ips.filter (fun r => r.src_ip == ip) = [u])
    (hmem : ip ∈ (db.events.filter (fun r => r.file_id == fileId)).filterMap
      (fun r => r.src_ip)) :
    (updateAnalyticsTables fileId now db).top_ips.filter (fun r => r.src_ip == ip) =
      [{ u with
          count := u.count +
            ((db.events.filter (fun r => r.file_id == fileId)).filter
              (fun r => r.src_ip == some ip)).length,
          last_seen := max u.last_seen
            (listMax (((db.events.filter (fun r => r.file_id == fileId)).filter
              (fun r => r.src_ip == some ip)).map (fun r => r.event_ts))),
          last_updated := now }] := by
  have hta : (updateAnalyticsTables fileId now db).top_ips =
      (ipGroups (db.events.filter (fun r => r.file_id == fileId)) now).foldl
        (upsertIp now) db.top_ips := rfl
  rw [hta]
  set fes := db.events.filter (fun r => r.file_id == fileId) with hfes
  have hkey : ip ∈ (fes.filterMap (fun r => r.src_ip)).dedup :=
    List.mem_dedup.mpr hmem
  obtain ⟨l1, l2, hsplit⟩ := List.append_of_mem hkey
  have hnd : ((fes.filterMap (fun r => r.src_ip)).dedup).Nodup := List.nodup_dedup _
  rw [hsplit] at hnd
  have hnotl1 : ip ∉ l1 := fun hc =>
    (List.disjoint_of_nodup_append hnd) hc (List.mem_cons_self ip l2)
  have hnotl2 : ip ∉ l2 :=
    (List.nodup_cons.mp (List.Nodup.of_append_right hnd)).1
  set mk : String → TopIpRow := fun k =>
    let rows := fes.filter (fun r => r.src_ip == some k)
    { src_ip := k
      count := rows.length
      countries := (rows.map (fun r => r.src_country)).dedup
      asns := (rows.map (fun r => r.src_asn)).dedup
      last_seen := listMax (rows.map (fun r => r.event_ts))
      last_updated := now } with hmk
  have hgrp : ipGroups fes now = (l1 ++ ip :: l2).map mk := by
    rw [ipGroups, ← hsplit, hmk]
  have hmkip : ∀ k, (mk k).src_ip = k := fun k => rfl
  have hl1 : ∀ g ∈ l1.map mk, g.src_ip ≠ ip := by
    intro g hg
    obtain ⟨k, hk, hgk⟩ := List.mem_map.mp hg
    intro hgc
    rw [← hgk, hmkip] at hgc
    exact hnotl1 (hgc ▸ hk)
  have hl2 : ∀ g ∈ l2.map mk, g.src_ip ≠ ip := by
    intro g hg
    obtain ⟨k, hk, hgk⟩ := List.mem_map.mp hg
    intro hgc
    rw [← hgk, hmkip] at hgc
    exact hnotl2 (hgc ▸ hk)
  have h1 : (List.foldl (upsertIp now) db.top_ips (l1.map mk)).filter
      (fun r => r.src_ip == ip) = [u] := by
    rw [foldl_upsertIp_ne now ip (l1.map mk) db.top_ips hl1]
    exact hu
  rw [hgrp, List.map_append, List.map_cons, List.foldl_append, List.foldl_cons,
    foldl_upsertIp_ne now ip (l2.map mk) _ hl2,
    upsertIp_filter_eq now _ (mk ip) u ip (hmkip ip) h1]

/-- Witness for `top_ips_conflict_merge`: merging file 7's German event for
IP 9.9.9.9 into a table already holding that IP accumulates the count to 2
and advances last-seen, with the stored sets untouched. -/
theorem top_ips_conflict_merge_witness :
    (updateAnalyticsTables 7 123 dbIpMerge).top_ips.filter
        (fun r => r.src_ip == "9.9.9.9") =
      [{ ipRowUS with count := 2, last_seen := 99, last_updated := 123 }] := by
  have h := top_ips_conflict_merge dbIpMerge 7 123 "9.9.9.9" ipRowUS
    (by decide) (by decide)
  exact h.trans (by decide)

/-- Counterexample to C4: the German event for IP 9.9.9.9 is part of file
7's events and is merged (the row's count becomes 2), yet the stored
country set stays `["US"]` — "DE" is not unioned in, and likewise the ASN
set stays `[100]`. -/
theorem top_ips_sets_not_unioned :
    eventRowDE ∈ dbIpMerge.events.filter (fun r => r.file_id == 7)
    ∧ eventRowDE.src_country = some "DE"
    ∧ eventRowDE.src_asn = some 200
    ∧ (updateAnalyticsTables 7 123 dbIpMerge).top_ips.map (fun r => r.count) = [2]
    ∧ (updateAnalyticsTables 7 123 dbIpMerge).top_ips.map (fun r => r.countries) =
        [[some "US"]]
    ∧ (updateAnalyticsTables 7 123 dbIpMerge).top_ips.map (fun r => r.asns) =
        [[some 100]] := by
  refine ⟨by decide, by decide, by decide, by decide, by decide, by decide⟩

/-- C5 at its failing input: ingesting two files that each contain one
event for `(path = "/login", method = POST, status = 403)` leaves the
`attack_paths` table with two rows for that same key, each with count 1 —
the random `path_hash` primary key means the second file's group never
conflicts with the first's row, so the `ON CONFLICT ... count + excluded.count`
accumulation clause of the source never fires.  The claimed
at-most-one-row-per-key invariant fails even though the statement's own
conflict clause shows accumulate-per-key was the intent. -/
theorem attack_paths_duplicate_key_rows :
    (updateAnalyticsTables 2 200 (updateAnalyticsTables 1 100 dbPaths)).attack_paths.map
        (fun r => (r.path, r.method, r.status, r.count)) =
      [("/login", some "POST", some 403, 1), ("/login", some "POST", some 403, 1)] := by
  decide

theorem toRow_key (e : WAFEvent) (fid : Nat) (now : Int) :
    (e.toRow fid now).key = e.key := rfl

theorem event_key_beq_true {e : WAFEvent} {k : String × Int} (h : e.key = k) :
    (e.ray_id == k.1 && e.event_ts == k.2) = true := by
  rcases k with ⟨kr, kt⟩
  simp only [WAFEvent.key, Prod.mk.injEq] at h
  simp [h.1, h.2]

theorem event_key_beq_false {e : WAFEvent} {k : String × Int} (h : e.key ≠ k) :
    (e.ray_id == k.1 && e.event_ts == k.2) = false := by
  rcases k with ⟨kr, kt⟩
  by_cases h1 : e.ray_id = kr
  · by_cases h2 : e.event_ts = kt
    · exact absurd (by simp [WAFEvent.key, h1, h2]) h
    · simp [h2]
  · simp [h1]

theorem row_key_beq_true {r : EventRow} {k : String × Int} (h : r.key = k) :
    (r.ray_id == k.1 && r.event_ts == k.2) = true := by
  rcases k with ⟨kr, kt⟩
  simp only [EventRow.key, Prod.mk.injEq] at h
  simp [h.1, h.2]

theorem row_key_beq_false {r : EventRow} {k : String × Int} (h : r.key ≠ k) :
    (r.ray_id == k.1 && r.event_ts == k.2) = false := by
  rcases k with ⟨kr, kt⟩
  by_cases h1 : r.ray_id = kr
  · by_cases h2 : r.event_ts = kt
    · exact absurd (by simp [EventRow.key, h1, h2]) h
    · simp [h2]
  · simp [h1]

theorem countKey_append_single (rows : List EventRow) (row : EventRow)
    (k : String × Int) :
    countKey (rows ++ [row]) k =
      countKey rows k + (if row.key = k then 1 else 0) := by
  simp only [countKey, List.filter_append, List.length_append]
  congr 1
  by_cases hk : row.key = k
  · simp [List.filter_cons, row_key_beq_true hk, hk]
  · simp [List.filter_cons, row_key_beq_false hk, hk]

theorem hasKey_iff_countKey (rows : List EventRow) (k : String × Int) :
    hasKey rows k = true ↔ countKey rows k ≠ 0 := by
  induction rows with
  | nil => simp [hasKey, countKey]
  | cons r rows ih =>
    by_cases h : (r.ray_id == k.1 && r.event_ts == k.2) = true
    · simp [hasKey, countKey, List.filter_cons, h]
    · simp [hasKey, countKey, List.filter_cons, h] at ih ⊢

theorem insertEventsGo_countKey (fid : Nat) (now : Int) (es : List WAFEvent)
    (rows : List EventRow) (i d : Nat) (k : String × Int) :
    countKey (insertEventsGo fid now es (rows, i, d)).1 k =
      if countKey rows k = 0 then
        (if es.any (fun e => e.ray_id == k.1 && e.event_ts == k.2) then 1 else 0)
      else countKey rows k := by
  induction es generalizing rows i d with
  | nil =>
    simp only [insertEventsGo, List.any_nil]
    split <;> simp_all
  | cons e es ih =>
    simp only [insertEventsGo, List.any_cons]
    by_cases hk : hasKey rows (e.toRow fid now).key = true
    · rw [if_pos hk, ih]
      by_cases hek : e.key = k
      · have hck : countKey rows k ≠ 0 := by
          apply (hasKey_iff_countKey rows k).mp
          rw [toRow_key, hek] at hk
          exact hk
        simp [hck]
      · simp [event_key_beq_false hek]
    · rw [if_neg hk, ih, countKey_append_single, toRow_key]
      by_cases hek : e.key = k
      · have hck : countKey rows k = 0 := by
          by_contra hc
          exact hk (by rw [toRow_key, hek]; exact (hasKey_iff_countKey rows k).mpr hc)
        simp [hck, hek, event_key_beq_true hek]
      · simp [hek, event_key_beq_false hek]

theorem insertEventsGo_tally (fid : Nat) (now : Int) (es : List WAFEvent)
    (rows : List EventRow) (i d : Nat) :
    (insertEventsGo fid now es (rows, i, d)).2.1 +
      (insertEventsGo fid now es (rows, i, d)).2.2 = i + d + es.length := by
  induction es generalizing rows i d with
  | nil => simp [insertEventsGo]
  | cons e es ih =>
    simp only [insertEventsGo]
    split <;> rw [ih] <;> simp only [List.length_cons] <;> omega

theorem hasKey_append_left (rows : List EventRow) (l : List EventRow)
    (k : String × Int) (h : hasKey rows k = true) : hasKey (rows ++ l) k = true := by
  simp only [hasKey, List.any_append]
  simp [hasKey] at h
  simp [h]

theorem insertEventsGo_ded_ge (fid : Nat) (now : Int) (es : List WAFEvent)
    (rows : List EventRow) (i d : Nat) (k : String × Int)
    (h : hasKey rows k = true) :
    (es.filter (fun e => e.ray_id == k.1 && e.event_ts == k.2)).length + d ≤
      (insertEventsGo fid now es (rows, i, d)).2.2 := by
  induction es generalizing rows i d with
  | nil => simp [insertEventsGo]
  | cons e es ih =>
    simp only [insertEventsGo, List.filter_cons]
    by_cases hek : e.key = k
    · have hrow : hasKey rows (e.toRow fid now).key = true := by
        rw [toRow_key, hek]; exact h
      rw [if_pos hrow]
      have h2 := ih rows i (d + 1) h
      simp only [event_key_beq_true hek, if_true, List.length_cons]
      omega
    · simp only [event_key_beq_false hek, Bool.false_eq_true, if_false]
      split
      · have _h2 := ih rows i (d + 1) h
        omega
      · exact ih (rows ++ [e.toRow fid now]) (i + 1) d
          (hasKey_append_left rows [e.toRow fid now] k h)

/-- C2: two normalized events sharing a `(ray_id, event_ts)` dedup key,
inserted by two separate `insertEventBatch` calls into a store with no
prior row for that key, leave exactly one stored row for the key after
both batches; the second batch's tallies account for every one of its
events, its key-sharing occurrences all land in the deduped tally, and no
additional row for the key is inserted by the second batch. -/
theorem insertEventBatch_dedup_across_batches (rows0 : List EventRow)
    (b1 b2 : List WAFEvent) (f1 f2 : Nat) (t1 t2 : Int) (k : String × Int)
    (h0 : countKey rows0 k = 0)
    (h1 : ∃ e ∈ b1, e.key = k)
    (h2 : ∃ e ∈ b2, e.key = k) :
    countKey (insertEventBatch b1 f1 t1 rows0).1 k = 1
    ∧ countKey (insertEventBatch b2 f2 t2 (insertEventBatch b1 f1 t1 rows0).1).1 k = 1
    ∧ (insertEventBatch b2 f2 t2 (insertEventBatch b1 f1 t1 rows0).1).2.1 +
        (insertEventBatch b2 f2 t2 (insertEventBatch b1 f1 t1 rows0).1).2.2 = b2.length
    ∧ (b2.filter (fun e => e.ray_id == k.1 && e.event_ts == k.2)).length ≤
        (insertEventBatch b2 f2 t2 (insertEventBatch b1 f1 t1 rows0).1).2.2
    ∧ 1 ≤ (insertEventBatch b2 f2 t2 (insertEventBatch b1 f1 t1 rows0).1).2.2 := by
  have hany1 : b1.any (fun e => e.ray_id == k.1 && e.event_ts == k.2) = true := by
    obtain ⟨e, he, hek⟩ := h1
    exact List.any_eq_true.mpr ⟨e, he, event_key_beq_true hek⟩
  have hc1 : countKey (insertEventBatch b1 f1 t1 rows0).1 k = 1 := by
    rw [insertEventBatch, insertEventsGo_countKey, if_pos h0, if_pos hany1]
  have hk1 : hasKey (insertEventBatch b1 f1 t1 rows0).1 k = true :=
    (hasKey_iff_countKey _ k).mpr (by rw [hc1]; exact one_ne_zero)
  have hded : (b2.filter (fun e => e.ray_id == k.1 && e.event_ts == k.2)).length ≤
      (insertEventBatch b2 f2 t2 (insertEventBatch b1 f1 t1 rows0).1).2.2 := by
    rw [insertEventBatch]
    have := insertEventsGo_ded_ge f2 t2 b2 (insertEventBatch b1 f1 t1 rows0).1 0 0 k hk1
    omega
  have hflt : 1 ≤ (b2.filter (fun e => e.ray_id == k.1 && e.event_ts == k.2)).length := by
    obtain ⟨e, he, hek⟩ := h2
    exact List.length_pos_of_mem (List.mem_filter.mpr ⟨he, event_key_beq_true hek⟩)
  refine ⟨hc1, ?_, ?_, hded, le_trans hflt hded⟩
  · rw [insertEventBatch, insertEventsGo_countKey, if_neg (by rw [hc1]; exact one_ne_zero)]
    exact hc1
  · rw [insertEventBatch]
    have := insertEventsGo_tally f2 t2 b2 (insertEventBatch b1 f1 t1 rows0).1 0 0
    omega

/-- Witness for `insertEventBatch_dedup_across_batches`: the same event in
two singleton batches is stored once; the second batch reports 0 inserted
and 1 deduped. -/
theorem insertEventBatch_dedup_across_batches_witness :
    countKey (insertEventBatch [basicEvent "dup" 5] 1 10 []).1 ("dup", 5) = 1
    ∧ countKey (insertEventBatch [basicEvent "dup" 5] 2 20
        (insertEventBatch [basicEvent "dup" 5] 1 10 []).1).1 ("dup", 5) = 1
    ∧ (insertEventBatch [basicEvent "dup" 5] 2 20
        (insertEventBatch [basicEvent "dup" 5] 1 10 []).1).2.1 +
      (insertEventBatch [basicEvent "dup" 5] 2 20
        (insertEventBatch [basicEvent "dup" 5] 1 10 []).1).2.2 = 1
    ∧ ([basicEvent "dup" 5].filter
        (fun e => e.ray_id == "dup" && e.event_ts == 5)).length ≤
      (insertEventBatch [basicEvent "dup" 5] 2 20
        (insertEventBatch [basicEvent "dup" 5] 1 10 []).1).2.2
    ∧ 1 ≤ (insertEventBatch [basicEvent "dup" 5] 2 20
        (insertEventBatch [basicEvent "dup" 5] 1 10 []).1).2.2 :=
  insertEventBatch_dedup_across_batches [] [basicEvent "dup" 5] [basicEvent "dup" 5]
    1 2 10 20 ("dup", 5) (by decide)
    ⟨basicEvent "dup" 5, by decide, by decide⟩
    ⟨basicEvent "dup" 5, by decide, by decide⟩
